import Mathlib

/-!
Verification model of the argentax Command Registration & Dispatch Core.

The definitions below are a shallow embedding of the repository source:
  * `src/flags.py`   — the `Flag` data model,
  * `src/router.py`  — the `Router` (command table, tokenization entry,
                       fuzzy suggestion via `difflib.get_close_matches`),
  * `src/app.py`     — `App.command` (signature-to-schema synthesis),
                       `App.execute` (dispatch), builtin registration,
  * `src/__init__.py`— `AsyncApp.execute`,
plus the parts of the Python standard library the source relies on
(`shlex.split` in POSIX mode, `difflib.SequenceMatcher.ratio` /
`difflib.get_close_matches`).

Python dicts are modelled as association lists with dict update semantics
(an existing key keeps its position, a new key is appended), which matches
CPython's insertion-ordered dicts.  Exceptions are modelled with `Except`.
-/

set_option maxRecDepth 20000

instance {ε α : Type} [DecidableEq ε] [DecidableEq α] :
    DecidableEq (Except ε α) := fun x y =>
  match x, y with
  | .ok a, .ok b =>
      if h : a = b then isTrue (by rw [h])
      else isFalse (by intro hh; cases hh; exact h rfl)
  | .ok _, .error _ => isFalse (by intro hh; cases hh)
  | .error _, .ok _ => isFalse (by intro hh; cases hh)
  | .error e, .error f =>
      if h : e = f then isTrue (by rw [h])
      else isFalse (by intro hh; cases hh; exact h rfl)

/-! ### Association lists with Python-dict update semantics -/

/-- `d[k] = v` on an insertion-ordered dict: an existing key keeps its
position and gets the new value, a fresh key is appended at the end. -/
def dinsert {α : Type} : List (String × α) → String → α → List (String × α)
  | [], k, v => [(k, v)]
  | (k', v') :: t, k, v =>
      if k' = k then (k, v) :: t else (k', v') :: dinsert t k v

/-- `d.get(k)`: first binding of `k`, if any. -/
def dget {α : Type} : List (String × α) → String → Option α
  | [], _ => none
  | (k', v) :: t, k => if k' = k then some v else dget t k

/-- `list(d.keys())`. -/
def dkeys {α : Type} (d : List (String × α)) : List String := d.map Prod.fst

theorem dget_dinsert_self {α : Type} (d : List (String × α)) (k : String) (v : α) :
    dget (dinsert d k v) k = some v := by
  induction d with
  | nil => simp [dinsert, dget]
  | cons p t ih =>
      obtain ⟨k', v'⟩ := p
      by_cases h : k' = k
      · simp [dinsert, dget, h]
      · simp [dinsert, dget, h, ih]

theorem dget_dinsert_ne {α : Type} (d : List (String × α)) (k q : String) (v : α)
    (h : k ≠ q) : dget (dinsert d k v) q = dget d q := by
  induction d with
  | nil => simp [dinsert, dget, h]
  | cons p t ih =>
      obtain ⟨k', v'⟩ := p
      by_cases h' : k' = k
      · subst h'
        simp [dinsert, dget, h]
      · simp [dinsert, dget, h', ih]

/-! ### Python value / type universe

A small universe for the runtime values that appear in the claims:
`None`, ints, strings, bools, and (as a parameter default) `Flag` objects.
-/

/-- Python type tags relevant to flag schemas (`str`, `int`, `bool`,
`NoneType`, or any other class). -/
inductive PyType where
  | pystr
  | pyint
  | pybool
  | pynoneType
  | pycustom (className : String)
  deriving DecidableEq, Repr

/-- Primitive Python values used as flag defaults. -/
inductive PyValue where
  | vnone
  | vint (n : Int)
  | vstr (s : String)
  | vbool (b : Bool)
  deriving DecidableEq, Repr

/-- `type(v)` on the primitive universe. -/
def typeOf : PyValue → PyType
  | .vnone => .pynoneType
  | .vint _ => .pyint
  | .vstr _ => .pystr
  | .vbool _ => .pybool

/-- The `Flag` class of `src/flags.py` (constructor defaults:
`name=None, type=str, default=None, required=False, description=None`). -/
structure FlagObj where
  name : Option String := none
  type : PyType := .pystr
  default : PyValue := .vnone
  required : Bool := false
  description : Option String := none
  deriving DecidableEq, Repr

/-- A parameter default slot of an `inspect.signature` parameter:
absent (`Parameter.empty`), a primitive value, or a pre-built `Flag`. -/
inductive ParamDefault where
  | empty
  | val (v : PyValue)
  | flagV (f : FlagObj)
  deriving DecidableEq, Repr

/-- One declared parameter of a handler, as seen through
`inspect.signature`: name, optional annotation, optional default. -/
structure Param where
  name : String
  annotation : Option PyType := none
  default : ParamDefault := .empty
  deriving DecidableEq, Repr

/-! ### Signature-to-schema synthesis (`App.command` in `src/app.py`) -/

/-- One iteration of the flag-synthesis loop in the `App.command`
decorator (`src/app.py`, lines 192-208). -/
def synthStep (flags : List (String × FlagObj)) (p : Param) : List (String × FlagObj) :=
  match p.default with
  | .flagV f => dinsert flags p.name { f with name := some p.name }
  | d =>
      if p.name ≠ "self" then
        let defv : PyValue := match d with
          | .val v => v
          | _ => .vnone
        let ptype : PyType := match p.annotation with
          | some t => t
          | none => if defv ≠ .vnone then typeOf defv else .pystr
        let req : Bool := d matches .empty
        dinsert flags p.name
          { name := some p.name, type := ptype, default := defv,
            required := req, description := none }
      else flags

/-- The whole synthesis loop: `flags = {}` then one `synthStep` per
parameter in declaration order. -/
def synthFlags (ps : List Param) : List (String × FlagObj) :=
  ps.foldl synthStep []

/-- Spec-side description of the per-parameter Flag (claim C2's wording):
a pre-built Flag default is adopted with its name normalized; otherwise
`required` iff no default, `default` = declared default or none, type =
annotation, else runtime type of the default, else string. -/
def flagFor (p : Param) : FlagObj :=
  match p.default with
  | .flagV f => { f with name := some p.name }
  | .empty =>
      { name := some p.name, type := p.annotation.getD .pystr,
        default := .vnone, required := true, description := none }
  | .val v =>
      { name := some p.name,
        type := p.annotation.getD (if v ≠ .vnone then typeOf v else .pystr),
        default := v, required := false, description := none }

/-- A parameter contributes a flag unless it is named `self` without a
pre-built Flag default. -/
def keepParam (p : Param) : Bool :=
  (p.default matches .flagV _) || p.name ≠ "self"

/-- The in-place `flag.name = param_name` mutation that `App.command`
performs on a pre-built `Flag` passed as a parameter default: the caller's
object has its `name` field overwritten; other parameters are untouched. -/
def mutateParam (p : Param) : Param :=
  match p.default with
  | .flagV f => { p with default := .flagV { f with name := some p.name } }
  | _ => p

theorem dinsert_of_not_mem {α : Type} (d : List (String × α)) (k : String) (v : α)
    (h : k ∉ dkeys d) : dinsert d k v = d ++ [(k, v)] := by
  induction d with
  | nil => simp [dinsert]
  | cons p t ih =>
      obtain ⟨k', v'⟩ := p
      simp only [dkeys, List.map_cons, List.mem_cons, not_or] at h
      have hne : k' ≠ k := fun hh => h.1 hh.symm
      simp [dinsert, hne, ih (by simpa [dkeys] using h.2)]

/-- Main structural lemma for claim C2: when the declared parameter names
are distinct (as they always are in a Python signature), the synthesis
loop produces exactly the filter-map described by the claim, in
declaration order. -/
theorem synthFlags_eq_of_nodup (ps : List Param)
    (h : (ps.map Param.name).Nodup) :
    synthFlags ps = (ps.filter keepParam).map (fun p => (p.name, flagFor p)) := by
  suffices H : ∀ acc : List (String × FlagObj),
      (∀ n ∈ dkeys acc, n ∉ ps.map Param.name) →
      ps.foldl synthStep acc = acc ++ (ps.filter keepParam).map (fun p => (p.name, flagFor p)) by
    simpa [synthFlags] using H [] (by simp [dkeys])
  induction ps with
  | nil => intro acc _; simp
  | cons p t ih =>
      intro acc hacc
      have hme : p.name ∉ dkeys acc := fun hmem => hacc _ hmem (by simp)
      have hstep : synthStep acc p =
          if keepParam p then acc ++ [(p.name, flagFor p)] else acc := by
        cases hd : p.default with
        | flagV f =>
            simp [synthStep, hd, keepParam, flagFor, dinsert_of_not_mem _ _ _ hme]
        | empty =>
            by_cases hs : p.name = "self"
            · simp [synthStep, hd, hs, keepParam]
            · cases hann : p.annotation <;>
                simp [synthStep, hd, hs, hann, keepParam, flagFor,
                  dinsert_of_not_mem _ _ _ hme]
        | val v =>
            by_cases hs : p.name = "self"
            · simp [synthStep, hd, hs, keepParam]
            · cases hann : p.annotation <;>
                simp [synthStep, hd, hs, hann, keepParam, flagFor,
                  dinsert_of_not_mem _ _ _ hme]
      have hnodup' : (t.map Param.name).Nodup := (List.nodup_cons.mp h).2
      have hp_nott : p.name ∉ t.map Param.name := (List.nodup_cons.mp h).1
      have hacc' : ∀ n ∈ dkeys (synthStep acc p), n ∉ t.map Param.name := by
        intro n hn
        rw [hstep] at hn
        by_cases hk : keepParam p
        · simp only [hk, if_true, dkeys, List.map_append] at hn
          rcases List.mem_append.mp hn with hn | hn
          · exact fun hmem => hacc n hn (by simp [hmem])
          · have : n = p.name := by simpa using hn
            subst this
            exact hp_nott
        · simp only [hk, if_false] at hn
          exact fun hmem => hacc n hn (by simp [hmem])
      have := ih hnodup' (synthStep acc p) hacc'
      rw [List.foldl_cons, this, hstep]
      by_cases hk : keepParam p <;> simp [hk]

/-! ### The command table (`Router` in `src/router.py`) -/

/-- The `Command` objects the router stores (`src/command/base.py` is not
part of the reviewed sources; the fields below are the ones `Router` and
`App` read: `name`, `aliases`, plus the payload `App.command` supplies.
`handlerId` stands for the identity of the Python handler function). -/
structure Command where
  name : String
  aliases : List String := []
  description : Option String := none
  flags : List (String × FlagObj) := []
  handlerId : Nat := 0
  deriving DecidableEq, Repr

/-- The `Router` state: primary dict from canonical (folded) name to
command, secondary dict from (folded) alias to folded canonical name, and
the construction-time case-sensitivity switch. -/
structure Router where
  commands : List (String × Command) := []
  aliases : List (String × String) := []
  case_sensitive : Bool := false
  deriving DecidableEq, Repr

/-- `Router(case_sensitive=cs)`. -/
def Router.empty (cs : Bool) : Router := { case_sensitive := cs }

/-- ASCII lowercase of one character (what Python `str.lower` does on the
ASCII names this library deals in). -/
def lowerChar (c : Char) : Char :=
  if c.isUpper then Char.ofNat (c.toNat + 32) else c

/-- `s.lower()` on ASCII strings, character by character. -/
def strLower (s : String) : String := String.mk (s.data.map lowerChar)

/-- The case folding `Router` applies: lowercase unless case-sensitive. -/
def fold (cs : Bool) (s : String) : String := if cs then s else strLower s

/-- The alias-binding loop in `Router.add_command`: every alias of the
command is folded and bound to the folded canonical name. -/
def bindAliases (d : List (String × String)) (cs : Bool)
    (aliases : List String) (target : String) : List (String × String) :=
  aliases.foldl (fun d a => dinsert d (fold cs a) target) d

/-- `Router.add_command` (`src/router.py`, lines 32-49). -/
def Router.add_command (r : Router) (c : Command) : Router :=
  let n := fold r.case_sensitive c.name
  { r with
    commands := dinsert r.commands n c,
    aliases := bindAliases r.aliases r.case_sensitive c.aliases n }

/-- `Router.get_command` (`src/router.py`, lines 51-68): fold, follow one
alias indirection if present, then look up the primary dict. -/
def Router.get_command (r : Router) (name : String) : Option Command :=
  let n := fold r.case_sensitive name
  let n' := match dget r.aliases n with
    | some target => target
    | none => n
  dget r.commands n'

theorem bindAliases_get (d : List (String × String)) (cs : Bool)
    (al : List String) (t q : String) :
    dget (bindAliases d cs al t) q =
      if ∃ a ∈ al, fold cs a = q then some t else dget d q := by
  induction al generalizing d with
  | nil => simp [bindAliases]
  | cons a rest ih =>
      have hfold : bindAliases d cs (a :: rest) t =
          bindAliases (dinsert d (fold cs a) t) cs rest t := rfl
      rw [hfold, ih]
      by_cases ha : fold cs a = q
      · by_cases hm : ∃ x ∈ rest, fold cs x = q
        · simp [ha, hm]
        · subst ha
          simp [hm, dget_dinsert_self]
      · by_cases hm : ∃ x ∈ rest, fold cs x = q
        · simp [ha, hm]
        · rw [dget_dinsert_ne _ _ _ _ ha]
          simp [ha, hm]

/-- Resolving any alias of a freshly added command returns that command,
whatever the prior table state. -/
theorem get_command_alias_after_add (r : Router) (c : Command) (a : String)
    (ha : a ∈ c.aliases) :
    (r.add_command c).get_command a = some c := by
  unfold Router.add_command Router.get_command
  simp only
  rw [bindAliases_get]
  have : ∃ x ∈ c.aliases, fold r.case_sensitive x = fold r.case_sensitive a :=
    ⟨a, ha, rfl⟩
  simp [this, dget_dinsert_self]

/-- Resolving the canonical name of a freshly added command returns that
command, provided the folded name was not already bound as an alias in
the prior table (a stale alias binding takes precedence on lookup). -/
theorem get_command_name_after_add (r : Router) (c : Command)
    (h : dget r.aliases (fold r.case_sensitive c.name) = none) :
    (r.add_command c).get_command c.name = some c := by
  unfold Router.add_command Router.get_command
  simp only
  rw [bindAliases_get]
  by_cases hm : ∃ a ∈ c.aliases,
      fold r.case_sensitive a = fold r.case_sensitive c.name
  · simp [hm, dget_dinsert_self]
  · simp [hm, h, dget_dinsert_self]

/-- A string that is bound neither in the primary dict nor in the alias
dict resolves to `None`. -/
theorem get_command_not_found (r : Router) (s : String)
    (hc : dget r.commands (fold r.case_sensitive s) = none)
    (ha : dget r.aliases (fold r.case_sensitive s) = none) :
    r.get_command s = none := by
  unfold Router.get_command
  simp [ha, hc]

/-! ### Tokenization: `shlex.split` in POSIX mode

`Router.parse_command_line` tokenizes with `shlex.split(command_line)`,
i.e. POSIX rules with `whitespace_split=True` and no comment characters:
whitespace separates tokens, single quotes group verbatim, double quotes
group with backslash escaping `\` and `"`, a backslash outside quotes
escapes the next character, an unterminated quote raises
`ValueError("No closing quotation")` and a trailing backslash raises
`ValueError("No escaped character")`.
-/

/-- Single quote. -/
def chSQ : Char := Char.ofNat 39

/-- Double quote. -/
def chDQ : Char := Char.ofNat 34

/-- Backslash. -/
def chBS : Char := Char.ofNat 92

/-- `shlex.whitespace` is space, tab, carriage return, newline. -/
def isWS (c : Char) : Bool :=
  c = ' ' || c = Char.ofNat 9 || c = Char.ofNat 13 || c = Char.ofNat 10

/-- Lexer state of `shlex.read_token`:  outside a token, inside a bare
word, inside single/double quotes, or just after a backslash (outside
quotes / inside double quotes). -/
inductive LexMode where
  | ws
  | word
  | squote
  | dquote
  | escWord
  | escDq
  deriving DecidableEq, Repr

/-- Emit the pending token: a token is produced if it is non-empty or if
any quote was seen (so `''` yields an empty token). -/
def emitTok (acc : List String) (tok : List Char) (quoted : Bool) : List String :=
  if tok ≠ [] || quoted then acc ++ [String.mk tok] else acc

/-- The `shlex` token loop, one character at a time. -/
def lexRun : List Char → LexMode → List Char → Bool → List String →
    Except String (List String)
  | [], .ws, _, _, acc => .ok acc
  | [], .word, tok, quoted, acc => .ok (emitTok acc tok quoted)
  | [], .squote, _, _, _ => .error "No closing quotation"
  | [], .dquote, _, _, _ => .error "No closing quotation"
  | [], .escWord, _, _, _ => .error "No escaped character"
  | [], .escDq, _, _, _ => .error "No escaped character"
  | c :: cs, .ws, tok, quoted, acc =>
      if isWS c then lexRun cs .ws tok quoted acc
      else if c = chSQ then lexRun cs .squote tok true acc
      else if c = chDQ then lexRun cs .dquote tok true acc
      else if c = chBS then lexRun cs .escWord tok quoted acc
      else lexRun cs .word (tok ++ [c]) quoted acc
  | c :: cs, .word, tok, quoted, acc =>
      if isWS c then lexRun cs .ws [] false (emitTok acc tok quoted)
      else if c = chSQ then lexRun cs .squote tok true acc
      else if c = chDQ then lexRun cs .dquote tok true acc
      else if c = chBS then lexRun cs .escWord tok quoted acc
      else lexRun cs .word (tok ++ [c]) quoted acc
  | c :: cs, .squote, tok, quoted, acc =>
      if c = chSQ then lexRun cs .word tok quoted acc
      else lexRun cs .squote (tok ++ [c]) quoted acc
  | c :: cs, .dquote, tok, quoted, acc =>
      if c = chDQ then lexRun cs .word tok quoted acc
      else if c = chBS then lexRun cs .escDq tok quoted acc
      else lexRun cs .dquote (tok ++ [c]) quoted acc
  | c :: cs, .escWord, tok, quoted, acc =>
      lexRun cs .word (tok ++ [c]) quoted acc
  | c :: cs, .escDq, tok, quoted, acc =>
      if c = chBS || c = chDQ then lexRun cs .dquote (tok ++ [c]) quoted acc
      else lexRun cs .dquote (tok ++ [chBS, c]) quoted acc

/-- `shlex.split(s)` (POSIX mode, whitespace split, comments off). -/
def shlex_split (s : String) : Except String (List String) :=
  lexRun s.toList .ws [] false []

theorem lexRun_ws_of_all_ws (cs : List Char) (h : cs.all isWS) :
    lexRun cs .ws [] false [] = .ok [] := by
  induction cs with
  | nil => rfl
  | cons c t ih =>
      simp only [List.all_cons, Bool.and_eq_true] at h
      rw [show lexRun (c :: t) .ws [] false [] = lexRun t .ws [] false [] by
        simp [lexRun, h.1]]
      exact ih h.2

/-- An all-whitespace (in particular empty) line tokenizes to `[]`. -/
theorem shlex_split_all_ws (s : String) (h : s.toList.all isWS) :
    shlex_split s = .ok [] :=
  lexRun_ws_of_all_ws s.toList h

/-! ### Fuzzy suggestion: `difflib` as used by `Router.find_similar_commands`

`find_similar_commands` calls
`difflib.get_close_matches(name, all_names, n=3, cutoff=threshold)`.
`get_close_matches` keeps every candidate whose
`SequenceMatcher.ratio() >= cutoff` and returns the `n` largest, ordered
as by a descending sort of `(ratio, candidate)` pairs with Python tuple
comparison (so equal ratios are ordered by descending string comparison).
`ratio()` is `2*M/(len(a)+len(b))` where `M` is the total size of the
Ratcliff/Obershelp matching blocks (recursively: a longest common block —
earliest in `a`, then earliest in `b`, among the longest — then the same
on the left and right remainders).  The `real_quick_ratio`/`quick_ratio`
pre-checks of `get_close_matches` are upper bounds of `ratio` and hence
do not change which candidates are kept.  Ratios are modelled as exact
rationals. -/

/-- Length of the common prefix of two character lists. -/
def cplen : List Char → List Char → Nat
  | a :: as, b :: bs => if a = b then cplen as bs + 1 else 0
  | _, _ => 0

/-- Pick the entry with strictly largest block size; earlier entries win
ties, matching `find_longest_match` iteration order (i ascending, then j
ascending). -/
def chooseBest (l : List (Nat × Nat × Nat)) : Nat × Nat × Nat :=
  l.foldl (fun acc x => if acc.2.2 < x.2.2 then x else acc) (0, 0, 0)

/-- `find_longest_match` over the whole ranges: the longest block
`(i, j, k)` with `a[i:i+k] = b[j:j+k]`, earliest `i` then earliest `j`
among the longest. -/
def bestBlock (a b : List Char) : Nat × Nat × Nat :=
  chooseBest ((List.range a.length).flatMap fun i =>
    (List.range b.length).map fun j => (i, j, cplen (a.drop i) (b.drop j)))

/-- Total matched size `M` of the recursive Ratcliff/Obershelp block
decomposition.  `fuel` only bounds the recursion depth; each level
removes a non-empty block, so `a.length + b.length` levels always
suffice. -/
def matchTotalF : Nat → List Char → List Char → Nat
  | 0, _, _ => 0
  | fu + 1, a, b =>
      let t := bestBlock a b
      let i := t.1
      let j := t.2.1
      let k := t.2.2
      if k = 0 then 0
      else matchTotalF fu (a.take i) (b.take j) + k +
        matchTotalF fu (a.drop (i + k)) (b.drop (j + k))

/-- `M` for two sequences. -/
def matchTotal (a b : List Char) : Nat :=
  matchTotalF (a.length + b.length) a b

/-- `SequenceMatcher(None, a, b).ratio()`: `2*M/(len(a)+len(b))`, and `1`
for two empty sequences (`difflib._calculate_ratio`). -/
def seqRatio (a b : List Char) : ℚ :=
  if a.length + b.length = 0 then 1
  else mkRat (2 * (matchTotal a b : Int)) (a.length + b.length)

/-- Strict lexicographic comparison of two strings by code points, as
Python `<` on `str`. -/
def lexLtB : List Char → List Char → Bool
  | [], [] => false
  | [], _ :: _ => true
  | _ :: _, [] => false
  | a :: as, b :: bs =>
      if a < b then true else if b < a then false else lexLtB as bs

theorem lexLtB_asymm (a b : List Char) (h : lexLtB a b = true) :
    lexLtB b a = false := by
  induction a generalizing b with
  | nil =>
      cases b with
      | nil => simp [lexLtB] at h
      | cons c cs => simp [lexLtB]
  | cons x xs ih =>
      cases b with
      | nil => simp [lexLtB] at h
      | cons y ys =>
          by_cases hxy : x < y
          · simp [lexLtB, hxy, lt_asymm hxy]
          · by_cases hyx : y < x
            · simp [lexLtB, hxy, hyx] at h
            · simp only [lexLtB, if_neg hxy, if_neg hyx] at h
              simp [lexLtB, hxy, hyx, ih _ h]

theorem lexLtB_negtrans (a b c : List Char) (hab : lexLtB a b = false)
    (hbc : lexLtB b c = false) : lexLtB a c = false := by
  induction a generalizing b c with
  | nil =>
      cases b with
      | nil =>
          cases c with
          | nil => rfl
          | cons z zs => simp [lexLtB] at hbc
      | cons y ys => simp [lexLtB] at hab
  | cons x xs ih =>
      cases c with
      | nil => rfl
      | cons z zs =>
          cases b with
          | nil => simp [lexLtB] at hbc
          | cons y ys =>
              by_cases hxy : x < y
              · simp [lexLtB, hxy] at hab
              · by_cases hyz : y < z
                · simp [lexLtB, hyz] at hbc
                · by_cases hyx : y < x
                  · by_cases hzy : z < y
                    · have hzx : z < x := lt_trans hzy hyx
                      simp [lexLtB, lt_asymm hzx, hzx]
                    · have hzy' : z = y := le_antisymm (not_lt.mp hyz) (not_lt.mp hzy)
                      subst hzy'
                      simp [lexLtB, lt_asymm hyx, hyx]
                  · have hxy' : x = y := le_antisymm (not_lt.mp hyx) (not_lt.mp hxy)
                    subst hxy'
                    by_cases hzy : z < x
                    · simp [lexLtB, lt_asymm hzy, hzy]
                    · have hzx' : z = x := le_antisymm (not_lt.mp hyz) (not_lt.mp hzy)
                      subst hzx'
                      simp only [lexLtB, if_neg hxy, lt_irrefl, if_neg (fun h => hxy h)] at hab hbc ⊢
                      simp only [lexLtB, lt_irrefl, if_false] at hab hbc ⊢
                      exact ih _ _ hab hbc

/-- Descending order on scored `(ratio, candidate)` pairs: Python's
tuple comparison, reversed. -/
def tupGe (x y : ℚ × String) : Prop :=
  y.1 < x.1 ∨ (x.1 = y.1 ∧ lexLtB x.2.data y.2.data = false)

instance : DecidableRel tupGe := fun x y =>
  inferInstanceAs (Decidable (y.1 < x.1 ∨ (x.1 = y.1 ∧ lexLtB x.2.data y.2.data = false)))

instance : IsTotal (ℚ × String) tupGe := by
  constructor
  intro x y
  rcases lt_trichotomy x.1 y.1 with h | h | h
  · exact Or.inr (Or.inl h)
  · by_cases hl : lexLtB x.2.data y.2.data = true
    · exact Or.inr (Or.inr ⟨h.symm, lexLtB_asymm _ _ hl⟩)
    · exact Or.inl (Or.inr ⟨h, Bool.not_eq_true _ ▸ hl⟩)
  · exact Or.inl (Or.inl h)

instance : IsTrans (ℚ × String) tupGe := by
  constructor
  rintro x y z (hxy | ⟨hxy, hxy2⟩) (hyz | ⟨hyz, hyz2⟩)
  · exact Or.inl (lt_trans hyz hxy)
  · exact Or.inl (hyz ▸ hxy)
  · exact Or.inl (hxy ▸ hyz)
  · exact Or.inr ⟨hxy.trans hyz, lexLtB_negtrans _ _ _ hxy2 hyz2⟩

/-- The scored, cutoff-filtered candidate list of `get_close_matches`,
in candidate order. -/
def scoredCandidates (word : String) (poss : List String) (cutoff : ℚ) :
    List (ℚ × String) :=
  poss.filterMap fun x =>
    if cutoff ≤ seqRatio x.data word.data
    then some (seqRatio x.data word.data, x) else none

/-- `difflib.get_close_matches(word, poss, n, cutoff)`. -/
def get_close_matches (word : String) (poss : List String) (n : Nat)
    (cutoff : ℚ) : List String :=
  ((List.insertionSort tupGe (scoredCandidates word poss cutoff)).take n).map
    Prod.snd

/-- `Router.find_similar_commands` (`src/router.py`, lines 113-132):
fold the query, collect primary keys then alias keys, and delegate to
`get_close_matches` with `n = 3`. -/
def Router.find_similar_commands (r : Router) (name : String)
    (threshold : ℚ := mkRat 3 5) : List String :=
  get_close_matches (fold r.case_sensitive name)
    (dkeys r.commands ++ dkeys r.aliases) 3 threshold

theorem mem_scoredCandidates (word : String) (poss : List String) (cutoff : ℚ)
    (p : ℚ × String) (h : p ∈ scoredCandidates word poss cutoff) :
    p.2 ∈ poss ∧ p.1 = seqRatio p.2.data word.data ∧ cutoff ≤ p.1 := by
  simp only [scoredCandidates, List.mem_filterMap] at h
  obtain ⟨x, hx, hcond⟩ := h
  by_cases hc : cutoff ≤ seqRatio x.data word.data
  · rw [if_pos hc] at hcond
    cases hcond
    exact ⟨hx, rfl, hc⟩
  · rw [if_neg hc] at hcond
    cases hcond

/-! ### Dispatch (`Router.parse_command_line`, `App.execute`,
`AsyncApp.execute`)

`Command.parse_args` and `Command.execute` live in `src/command/base.py`,
which is not among the reviewed sources; the dispatch model is therefore
parametric in a binder `pa` (argument parsing, may raise) and an executor
`ex` (handler invocation, may raise), exactly as `App.execute` only ever
uses them through those two calls.  For a synchronous handler,
`AsyncApp.execute` runs the very same two calls. -/

/-- The Python exceptions that can cross the dispatch boundary. -/
inductive PyErr where
  | valueError (msg : String)
  | commandNotFoundError (msg : String)
  | commandExecutionError (msg : String)
  | otherError (kind msg : String)
  deriving DecidableEq, Repr

/-- Message carried by an exception. -/
def PyErr.msg : PyErr → String
  | .valueError m => m
  | .commandNotFoundError m => m
  | .commandExecutionError m => m
  | .otherError _ m => m

/-- `isinstance(e, CommandNotFoundError)`. -/
def PyErr.isCNF : PyErr → Bool
  | .commandNotFoundError _ => true
  | _ => false

/-- `isinstance(e, CommandExecutionError)`. -/
def PyErr.isCEE : PyErr → Bool
  | .commandExecutionError _ => true
  | _ => false

/-- The wrapping in the final `except Exception` clause of both
`App.execute` and `AsyncApp.execute`: anything that is not already a
`CommandExecutionError` is replaced by
`CommandExecutionError(f"Ошибка при выполнении команды: {e}")`. -/
def wrapCEE (e : PyErr) : PyErr :=
  match e with
  | .commandExecutionError m => .commandExecutionError m
  | e => .commandExecutionError ("Ошибка при выполнении команды: " ++ e.msg)

/-- `Router.parse_command_line` (`src/router.py`, lines 78-111):
tokenize, reject empty token lists, resolve the head token, then bind the
tail with `Command.parse_args` (abstracted as `pa`). -/
def Router.parse_command_line {β : Type} (r : Router)
    (pa : Command → List String → Except PyErr β) (line : String) :
    Except PyErr (Command × β) :=
  match shlex_split line with
  | .error m => .error (.valueError ("Ошибка разбора командной строки: " ++ m))
  | .ok [] => .error (.valueError "Пустая командная строка")
  | .ok (t :: rest) =>
      match r.get_command t with
      | none =>
          .error (.commandNotFoundError ("Команда \x27" ++ t ++ "\x27 не найдена"))
      | some cmd => (pa cmd rest).map fun b => (cmd, b)

/-- `", ".join(similar_commands)`. -/
def joinComma : List String → String
  | [] => ""
  | [s] => s
  | s :: rest => s ++ ", " ++ joinComma rest

/-- The body of the `try` block shared by both dispatchers
(`src/app.py` lines 259-264 and `src/__init__.py` lines 150-163 for a
synchronous handler): `parse_command_line`, then
`command.execute(*args, **kwargs)`; an exception raised by either one
propagates to the `except` clauses. -/
def dispatchAttempt {β γ : Type} (pa : Command → List String → Except PyErr β)
    (ex : Command → β → Except PyErr γ) (r : Router) (line : String) :
    Except PyErr γ :=
  match r.parse_command_line pa line with
  | .ok (cmd, b) => ex cmd b
  | .error e => .error e

/-- `App.execute` (`src/app.py`, lines 246-287).  On success the handler
value is returned.  The `try` covers both `parse_command_line` and
`command.execute`, so a `CommandNotFoundError` raised by EITHER (lookup,
binding, or the handler itself) takes the `except CommandNotFoundError`
clause, which re-tokenizes (with a dead `return None` on an empty token
list) and re-raises with a suggestion list; every other exception that
is not already a `CommandExecutionError` is wrapped by `wrapCEE`.  The
result `Except PyErr (Option γ)` uses `ok none` for the dead
`return None`. -/
def App.execute {β γ : Type} (pa : Command → List String → Except PyErr β)
    (ex : Command → β → Except PyErr γ) (r : Router) (line : String) :
    Except PyErr (Option γ) :=
  match dispatchAttempt pa ex r line with
  | .ok v => .ok (some v)
  | .error e =>
      if e.isCNF then
        match shlex_split line with
        | .ok [] => .ok none
        | .ok (t :: _) =>
            match r.find_similar_commands t (mkRat 3 5) with
            | [] =>
                .error (.commandNotFoundError
                  ("Команда \x27" ++ t ++ "\x27 не найдена."))
            | sims =>
                .error (.commandNotFoundError
                  ("Команда \x27" ++ t ++ "\x27 не найдена. Возможно, вы имели в виду: "
                    ++ joinComma sims))
        | .error m => .error (.valueError m)
      else .error (wrapCEE e)

/-- `AsyncApp.execute` (`src/__init__.py`, lines 137-169) restricted to a
synchronous resolved handler (`inspect.iscoroutinefunction` false), where
it runs `command.execute(*args, **kwargs)` exactly like `App.execute`.
Its only `except` clause wraps every non-`CommandExecutionError` —
including `CommandNotFoundError` — via `wrapCEE`; there is no suggestion
branch and no `return None` path. -/
def AsyncApp.execute {β γ : Type} (pa : Command → List String → Except PyErr β)
    (ex : Command → β → Except PyErr γ) (r : Router) (line : String) :
    Except PyErr (Option γ) :=
  match r.parse_command_line pa line with
  | .ok (cmd, b) =>
      match ex cmd b with
      | .ok v => .ok (some v)
      | .error e => .error (wrapCEE e)
  | .error e => .error (wrapCEE e)

/-! ### Builtin registration (`App.__init__`, `src/app.py`)

`App.__init__(… exit_command="exit", case_sensitive=False …)` constructs
`Router(case_sensitive)` and `_register_builtin_commands` registers, via
the `App.command` decorator, first the exit command (handler `exit_app`,
no parameters) and then `"help"` (handler `help_command(command: str =
None)`).  The flag schemas below are produced by the synthesis model
applied to those two signatures. -/

/-- Signature of the builtin `exit_app` handler: no parameters. -/
def exitParams : List Param := []

/-- Signature of the builtin `help_command` handler:
`command: str = None`. -/
def helpParams : List Param :=
  [{ name := "command", annotation := some .pystr, default := .val .vnone }]

/-- The builtin exit command (`handlerId 0`). -/
def exitCommandObj (exit_command : String) : Command :=
  { name := exit_command, aliases := [],
    description := some "Выход из приложения",
    flags := synthFlags exitParams, handlerId := 0 }

/-- The builtin help command (`handlerId 1`). -/
def helpCommandObj : Command :=
  { name := "help", aliases := [],
    description := some "Показать справку по командам",
    flags := synthFlags helpParams, handlerId := 1 }

/-- The router state right after `App.__init__` (the in-repo plugins
never touch the command table). -/
def appInitRouter (exit_command : String) (cs : Bool) : Router :=
  (Router.empty cs).add_command (exitCommandObj exit_command)
    |>.add_command helpCommandObj

/-! ### Concrete fixtures used by witnesses and counterexamples -/

/-- Classification of a dispatch outcome by error kind. -/
inductive ResKind where
  | success
  | valueErr
  | notFound
  | execErr
  | otherErr
  deriving DecidableEq, Repr

/-- Kind of a dispatch result. -/
def resKind {γ : Type} : Except PyErr (Option γ) → ResKind
  | .ok _ => .success
  | .error (.valueError _) => .valueErr
  | .error (.commandNotFoundError _) => .notFound
  | .error (.commandExecutionError _) => .execErr
  | .error (.otherError _ _) => .otherErr

/-- A trivial binder: `parse_args` that succeeds with the raw tokens. -/
def paId : Command → List String → Except PyErr (List String) :=
  fun _ ts => .ok ts

/-- A trivial executor: `Command.execute` that succeeds with the
handler id. -/
def exNat : Command → List String → Except PyErr Nat :=
  fun c _ => .ok c.handlerId

/-- Table with the names of the suggestion example of the spec. -/
def rStat : Router :=
  ((Router.empty false).add_command { name := "status", handlerId := 40 }
    ).add_command { name := "stats", handlerId := 41 }
    |>.add_command { name := "start", handlerId := 42 }

/-! ### Claim C2 -/

/-- C2 (confirmed): for a handler signature with distinct parameter
names, schema synthesis yields exactly one Flag per declared parameter in
declaration order, skipping a non-Flag-default parameter named `self`;
a pre-built Flag default is adopted with its `name` set to the parameter
name; otherwise the Flag has `required` iff the parameter has no default,
`default` the declared default (or None), and type the annotation, else
the runtime type of the default, else `str` (`flagFor` spells out exactly
this per-parameter description). -/
theorem claim_C2 (ps : List Param) (h : (ps.map Param.name).Nodup) :
    synthFlags ps = (ps.filter keepParam).map fun p => (p.name, flagFor p) :=
  synthFlags_eq_of_nodup ps h

/-- Witness signature:
`handler(self, x: int, greeting="World", verbose=Flag(name="other", type=bool, default=False))`. -/
def wParams : List Param :=
  [{ name := "self" },
   { name := "x", annotation := some .pyint },
   { name := "greeting", default := .val (.vstr "World") },
   { name := "verbose",
     default := .flagV { name := some "other", type := .pybool,
                         default := .vbool false, required := false } }]

theorem claim_C2_witness :
    ((wParams.map Param.name).Nodup ∧
      synthFlags wParams = (wParams.filter keepParam).map fun p => (p.name, flagFor p)) ∧
    synthFlags wParams =
      [("x", { name := some "x", type := .pyint, default := .vnone,
               required := true, description := none }),
       ("greeting", { name := some "greeting", type := .pystr,
                      default := .vstr "World", required := false,
                      description := none }),
       ("verbose", { name := some "verbose", type := .pybool,
                     default := .vbool false, required := false,
                     description := none })] :=
  ⟨⟨by decide, claim_C2 wParams (by decide)⟩, by decide⟩

/-! ### Claim C9 -/

/-- Post-state of the handler's parameter-default objects after the
synthesis loop ran (the loop assigns `flag.name = param_name` on every
adopted pre-built Flag, in place). -/
def synthPost (ps : List Param) : List Param := ps.map mutateParam

/-- The Flag object with its mutable `name` slot blanked, for stating
that nothing but `name` changes. -/
def eraseFlagName (p : Param) : Param :=
  match p.default with
  | .flagV f => { p with default := .flagV { f with name := none } }
  | _ => p

theorem mutateParam_mutateParam (p : Param) :
    mutateParam (mutateParam p) = mutateParam p := by
  cases hd : p.default <;> simp [mutateParam, hd]

theorem synthStep_mutateParam (acc : List (String × FlagObj)) (p : Param) :
    synthStep acc (mutateParam p) = synthStep acc p := by
  cases hd : p.default <;> simp [mutateParam, synthStep, hd]

/-- C9 (amended): synthesis is not free of side effects — it overwrites
the `name` of every pre-built Flag passed as a parameter default with the
parameter's name.  That is its only side effect (parameters without a
Flag default are untouched, and no Flag field other than `name` changes),
the mutation is idempotent, and repeating synthesis on the mutated
signature returns the same schema. -/
theorem claim_C9 (ps : List Param) :
    (∀ p ∈ ps, (∀ f, p.default ≠ .flagV f) → mutateParam p = p) ∧
    (∀ p ∈ ps, eraseFlagName (mutateParam p) = eraseFlagName p) ∧
    (∀ p ∈ ps, ∀ f, p.default = .flagV f →
      (mutateParam p).default = .flagV { f with name := some p.name }) ∧
    synthPost (synthPost ps) = synthPost ps ∧
    synthFlags (synthPost ps) = synthFlags ps := by
  refine ⟨?_, ?_, ?_, ?_, ?_⟩
  · intro p _ hf
    cases hd : p.default with
    | flagV f => exact absurd hd (hf f)
    | empty => simp [mutateParam, hd]
    | val v => simp [mutateParam, hd]
  · intro p _
    cases hd : p.default <;> simp [mutateParam, eraseFlagName, hd]
  · intro p _ f hd
    simp [mutateParam, hd]
  · simp only [synthPost, List.map_map]
    exact List.map_congr_left fun p _ => mutateParam_mutateParam p
  · unfold synthFlags synthPost
    rw [List.foldl_map]
    exact (List.foldl_ext _ _ _ fun acc p _ => (synthStep_mutateParam acc p).symm).symm

/-- The concrete handler parameter of the counterexample:
`x=Flag(name="other", type=int, default=5, required=True)`. -/
def p9 : Param :=
  { name := "x",
    default := .flagV { name := some "other", type := .pyint,
                        default := .vint 5, required := true } }

/-- C9 counterexample: after registering a handler with parameter
`x=Flag(name="other", …)`, the caller's Flag object does NOT keep its
fields — its `name` has been overwritten from `"other"` to `"x"`,
refuting the claim that every caller-supplied object is left unchanged
(in particular its `name`). -/
theorem claim_C9_counterexample :
    synthPost [p9] ≠ [p9] ∧
    synthPost [p9] =
      [{ name := "x",
         default := .flagV { name := some "x", type := .pyint,
                             default := .vint 5, required := true } }] := by
  constructor
  · decide
  · decide

theorem claim_C9_witness :
    eraseFlagName (mutateParam p9) = eraseFlagName p9 ∧
    (mutateParam p9).default =
      .flagV { name := some "x", type := .pyint, default := .vint 5,
               required := true } ∧
    synthFlags (synthPost [p9]) = synthFlags [p9] :=
  ⟨(claim_C9 [p9]).2.1 p9 (by decide),
   (claim_C9 [p9]).2.2.1 p9 (by decide)
     { name := some "other", type := .pyint, default := .vint 5, required := true }
     (by decide),
   (claim_C9 [p9]).2.2.2.2⟩

/-! ### Claim C6 -/

/-- C6 (amended): `Router.add_command` performs no whitespace validation
at all — registration always succeeds and records the command under its
folded canonical name, whether or not the name or aliases contain
whitespace.  (The `TriggerCannotContainSpacesException` class exists in
`src/exceptions.py` but is never raised by the registration path.) -/
theorem claim_C6 (r : Router) (c : Command) :
    dget (r.add_command c).commands (fold r.case_sensitive c.name) = some c := by
  unfold Router.add_command
  exact dget_dinsert_self ..

/-- The whitespace-named command of the counterexample. -/
def cBad : Command := { name := "has space", aliases := ["also bad"], handlerId := 30 }

/-- C6 counterexample: registering a command whose canonical name and
alias both contain whitespace does not fail — the command is recorded
and resolvable by its name and its alias, refuting the claim that such a
registration fails with an `InvalidNameError`. -/
theorem claim_C6_counterexample :
    ((Router.empty false).add_command cBad).get_command "has space" = some cBad ∧
    ((Router.empty false).add_command cBad).get_command "also bad" = some cBad := by
  constructor
  · decide
  · decide

/-! ### Claim C1 -/

/-- C1 (amended): immediately after registering command `c`,
(1) resolving any of `c`'s aliases (folded) returns `c`, unconditionally;
(2) resolving `c`'s exact name returns `c`, provided the folded name was
not already bound as an alias in the prior table (a stale alias binding
shadows the new canonical entry — see C4);
(3) resolving a string that is bound neither as a name key nor as an
alias key returns the not-found signal;
(4) concretely, on a case-insensitive table, registering `"Fetch"` makes
`"fetch"`, `"FETCH"` and `"FeTcH"` all resolve to it, while a
case-sensitive table resolves only `"Fetch"`. -/
theorem claim_C1 (r : Router) (c : Command)
    (h : dget r.aliases (fold r.case_sensitive c.name) = none) :
    (∀ a ∈ c.aliases, (r.add_command c).get_command a = some c) ∧
    (r.add_command c).get_command c.name = some c ∧
    (∀ s : String,
      dget (r.add_command c).commands (fold r.case_sensitive s) = none →
      dget (r.add_command c).aliases (fold r.case_sensitive s) = none →
      (r.add_command c).get_command s = none) ∧
    (((Router.empty false).add_command { name := "Fetch" }).get_command "fetch" =
        some { name := "Fetch" } ∧
      ((Router.empty false).add_command { name := "Fetch" }).get_command "FETCH" =
        some { name := "Fetch" } ∧
      ((Router.empty false).add_command { name := "Fetch" }).get_command "FeTcH" =
        some { name := "Fetch" } ∧
      ((Router.empty true).add_command { name := "Fetch" }).get_command "Fetch" =
        some { name := "Fetch" } ∧
      ((Router.empty true).add_command { name := "Fetch" }).get_command "fetch" = none ∧
      ((Router.empty true).add_command { name := "Fetch" }).get_command "FETCH" = none) := by
  refine ⟨fun a ha => get_command_alias_after_add r c a ha,
    get_command_name_after_add r c h,
    fun s hc ha => get_command_not_found _ s hc ha,
    by decide, by decide, by decide, by decide, by decide, by decide⟩

/-- The command of the C1 witness. -/
def cW1 : Command := { name := "Fetchw", aliases := ["fe"], handlerId := 12 }

theorem claim_C1_witness :
    ((Router.empty false).add_command cW1).get_command "fe" = some cW1 ∧
    ((Router.empty false).add_command cW1).get_command cW1.name = some cW1 ∧
    ((Router.empty false).add_command cW1).get_command "other" = none :=
  ⟨(claim_C1 (Router.empty false) cW1 (by decide)).1 "fe" (by decide),
   (claim_C1 (Router.empty false) cW1 (by decide)).2.1,
   (claim_C1 (Router.empty false) cW1 (by decide)).2.2.1 "other" (by decide) (by decide)⟩

/-- The commands of the C1 counterexample: first a command carrying the
alias `"fetch"`, then a command whose canonical name is `"fetch"`. -/
def cOther : Command := { name := "other", aliases := ["fetch"], handlerId := 10 }

/-- Second registered command of the C1 counterexample. -/
def cFetch2 : Command := { name := "fetch", handlerId := 11 }

/-- C1 counterexample: after registering a command with alias
`"fetch"` and then a command named `"fetch"`, resolving `"fetch"` does
NOT return the command registered under that exact name — the stale
alias wins — refuting the claim for arbitrary table states. -/
theorem claim_C1_counterexample :
    ((Router.empty false).add_command cOther |>.add_command cFetch2).get_command
        "fetch" ≠ some cFetch2 ∧
    ((Router.empty false).add_command cOther |>.add_command cFetch2).get_command
        "fetch" = some cOther := by
  constructor
  · decide
  · decide

/-! ### Claim C4 -/

/-- C4 (amended): "last registration wins" holds when the collision is on
a canonical name: a later command with the same folded canonical name
replaces the earlier one (provided the name is not shadowed by an alias
binding), and a later alias bound over an earlier canonical name
redirects resolution to the later command.  It does NOT hold in the
reverse direction: a later canonical name colliding with an earlier
alias is shadowed, because `get_command` follows the alias indirection
first — resolution returns the earlier command (shown concretely in
conjunct three). -/
theorem claim_C4 (r : Router) (c₁ c₂ : Command) :
    (fold r.case_sensitive c₁.name = fold r.case_sensitive c₂.name →
      dget (r.add_command c₁).aliases (fold r.case_sensitive c₂.name) = none →
      ((r.add_command c₁).add_command c₂).get_command c₂.name = some c₂) ∧
    (∀ a ∈ c₂.aliases, fold r.case_sensitive a = fold r.case_sensitive c₁.name →
      ((r.add_command c₁).add_command c₂).get_command a = some c₂) ∧
    (((Router.empty false).add_command { name := "one", aliases := ["a"], handlerId := 20 }
        |>.add_command { name := "a", handlerId := 21 }).get_command "a" =
      some { name := "one", aliases := ["a"], handlerId := 20 }) := by
  refine ⟨fun _ h => get_command_name_after_add (r.add_command c₁) c₂ h,
    fun a ha _ => get_command_alias_after_add (r.add_command c₁) c₂ a ha,
    by decide⟩

/-- First command of the C4 witness. -/
def cDup1 : Command := { name := "dup", handlerId := 22 }

/-- Second command of the C4 witness: name collides (case-folded) with
`cDup1`, and its alias also folds onto the same key. -/
def cDup2 : Command := { name := "Dup", aliases := ["DUP"], handlerId := 23 }

theorem claim_C4_witness :
    ((Router.empty false).add_command cDup1 |>.add_command cDup2).get_command
        cDup2.name = some cDup2 ∧
    ((Router.empty false).add_command cDup1 |>.add_command cDup2).get_command
        "DUP" = some cDup2 :=
  ⟨(claim_C4 (Router.empty false) cDup1 cDup2).1 (by decide) (by decide),
   (claim_C4 (Router.empty false) cDup1 cDup2).2.1 "DUP" (by decide) (by decide)⟩

/-- Commands of the C4 counterexample. -/
def cOne : Command := { name := "one", aliases := ["a"], handlerId := 24 }

/-- Later command of the C4 counterexample, named like the old alias. -/
def cA : Command := { name := "a", handlerId := 25 }

/-- C4 counterexample: registering `one` with alias `"a"` and then a
command named `"a"` does NOT make `"a"` resolve to the later command —
the earlier alias binding takes precedence — refuting unrestricted
"last registration wins". -/
theorem claim_C4_counterexample :
    ((Router.empty false).add_command cOne |>.add_command cA).get_command "a" ≠
      some cA ∧
    ((Router.empty false).add_command cOne |>.add_command cA).get_command "a" =
      some cOne := by
  constructor
  · decide
  · decide

/-! ### Claim C10 -/

/-- C5 (amended): for every raw line with unbalanced quoting (any line on
which tokenization fails), dispatch does NOT surface the tokenization
error verbatim: `Router.parse_command_line` re-raises it as a prefixed
`ValueError`, and `App.execute`'s catch-all wraps that into a
`CommandExecutionError`, which is what the caller receives. -/
theorem claim_C5 {β γ : Type} (pa : Command → List String → Except PyErr β)
    (ex : Command → β → Except PyErr γ) (r : Router) (line m : String)
    (h : shlex_split line = .error m) :
    App.execute pa ex r line =
      .error (.commandExecutionError
        ("Ошибка при выполнении команды: Ошибка разбора командной строки: " ++ m)) := by
  unfold App.execute dispatchAttempt Router.parse_command_line
  rw [h]
  simp only [PyErr.isCNF, wrapCEE, PyErr.msg, Bool.false_eq_true, if_false]
  rw [← String.append_assoc]
  rfl

theorem claim_C5_witness :
    App.execute paId exNat (appInitRouter "exit" false) "abc \"def" =
      .error (.commandExecutionError
        "Ошибка при выполнении команды: Ошибка разбора командной строки: No closing quotation") :=
  claim_C5 paId exNat (appInitRouter "exit" false) "abc \"def"
    "No closing quotation" (by decide)

/-- C5 counterexample: dispatching `foo "bar` (unbalanced double quote)
yields a `CommandExecutionError`, not a verbatim tokenization error —
the tokenization `ValueError` has been wrapped — refuting the claim that
the failure is surfaced verbatim and not wrapped in any other kind. -/
theorem claim_C5_counterexample :
    resKind (App.execute paId exNat (appInitRouter "exit" false) "foo \"bar") =
      .execErr ∧
    App.execute paId exNat (appInitRouter "exit" false) "foo \"bar" =
      .error (.commandExecutionError
        "Ошибка при выполнении команды: Ошибка разбора командной строки: No closing quotation") := by
  constructor
  · decide
  · decide

/-! ### Claim C7 -/

/-- C7 (amended): an empty or all-whitespace line tokenizes to the empty
token sequence (that part of the claim holds), but the dispatch path does
NOT treat it as a no-op: `Router.parse_command_line` raises
`ValueError("Пустая командная строка")` on an empty token list, and
`App.execute` wraps it into a `CommandExecutionError`.  (Only the
interactive loop avoids this by skipping blank lines before dispatch.) -/
theorem claim_C7 {β γ : Type} (pa : Command → List String → Except PyErr β)
    (ex : Command → β → Except PyErr γ) (r : Router) (line : String)
    (h : line.toList.all isWS) :
    shlex_split line = .ok [] ∧
    App.execute pa ex r line =
      .error (.commandExecutionError
        "Ошибка при выполнении команды: Пустая командная строка") := by
  have hs := shlex_split_all_ws line h
  refine ⟨hs, ?_⟩
  unfold App.execute dispatchAttempt Router.parse_command_line
  rw [hs]
  simp [PyErr.isCNF, wrapCEE, PyErr.msg]

theorem claim_C7_witness :
    shlex_split "  " = .ok [] ∧
    App.execute paId exNat (appInitRouter "exit" false) "  " =
      .error (.commandExecutionError
        "Ошибка при выполнении команды: Пустая командная строка") :=
  claim_C7 paId exNat (appInitRouter "exit" false) "  " (by decide)

/-- C7 counterexample: dispatching the empty line produces a
`CommandExecutionError` instead of being a no-op, refuting the claim
that an empty line "does not produce an error" on the dispatch path. -/
theorem claim_C7_counterexample :
    shlex_split "" = .ok [] ∧
    App.execute paId exNat (appInitRouter "exit" false) "" =
      .error (.commandExecutionError
        "Ошибка при выполнении команды: Пустая командная строка") ∧
    resKind (App.execute paId exNat (appInitRouter "exit" false) "") ≠ .success := by
  refine ⟨by decide, by decide, by decide⟩

/-! ### Claim C8 -/

theorem parse_ok_tokens {β : Type} (pa : Command → List String → Except PyErr β)
    (r : Router) (line : String) (cb : Command × β)
    (h : r.parse_command_line pa line = .ok cb) :
    ∃ t rest, shlex_split line = .ok (t :: rest) := by
  unfold Router.parse_command_line at h
  cases hsp : shlex_split line with
  | error msg => rw [hsp] at h; cases h
  | ok toks =>
      cases toks with
      | nil => rw [hsp] at h; cases h
      | cons t rest => exact ⟨t, rest, rfl⟩

theorem parse_error_cnf_tokens {β : Type}
    (pa : Command → List String → Except PyErr β) (r : Router) (line m : String)
    (h : r.parse_command_line pa line = .error (.commandNotFoundError m)) :
    ∃ t rest, shlex_split line = .ok (t :: rest) := by
  unfold Router.parse_command_line at h
  cases hsp : shlex_split line with
  | error msg => rw [hsp] at h; simp at h
  | ok toks =>
      cases toks with
      | nil => rw [hsp] at h; simp at h
      | cons t rest => exact ⟨t, rest, rfl⟩

/-- When the combined try-block raises a `CommandNotFoundError` — from
lookup, from binding, or from the handler itself — the line had a
non-empty token list, so the suggestion branch re-tokenizes
successfully. -/
theorem dispatchAttempt_cnf_tokens {β γ : Type}
    (pa : Command → List String → Except PyErr β)
    (ex : Command → β → Except PyErr γ) (r : Router) (line m : String)
    (h : dispatchAttempt pa ex r line = .error (.commandNotFoundError m)) :
    ∃ t rest, shlex_split line = .ok (t :: rest) := by
  unfold dispatchAttempt at h
  cases hp : r.parse_command_line pa line with
  | ok cb => exact parse_ok_tokens pa r line cb hp
  | error e =>
      rw [hp] at h
      cases h
      exact parse_error_cnf_tokens pa r line m hp

/-- `AsyncApp.execute` wraps every failure of the shared try block. -/
theorem asyncExecute_eq_wrap {β γ : Type}
    (pa : Command → List String → Except PyErr β)
    (ex : Command → β → Except PyErr γ) (r : Router) (line : String) :
    AsyncApp.execute pa ex r line =
      (match dispatchAttempt pa ex r line with
       | .ok v => .ok (some v)
       | .error e => .error (wrapCEE e)) := by
  unfold AsyncApp.execute dispatchAttempt
  cases hp : r.parse_command_line pa line with
  | ok cb =>
      obtain ⟨cmd, b⟩ := cb
      cases hx : ex cmd b <;> rfl
  | error e => rfl

/-- C8 (amended): for a synchronous resolved handler, the two
dispatchers run the very same try block (tokenization, lookup, binding,
handler call) and agree exactly on every success; they also agree — both
producing the same wrapped `CommandExecutionError` — on every failure
whose exception is not a `CommandNotFoundError`.  But whenever the try
block raises a `CommandNotFoundError` (an unknown command, or the binder
or handler itself raising one), `App.execute` re-raises a
`CommandNotFoundError` with suggestions while `AsyncApp.execute` — which
lacks the dedicated `except CommandNotFoundError` clause — wraps it into
a `CommandExecutionError`: the error kinds differ. -/
theorem claim_C8 {β γ : Type} (pa : Command → List String → Except PyErr β)
    (ex : Command → β → Except PyErr γ) (r : Router) (line : String) :
    (∀ v : γ, dispatchAttempt pa ex r line = .ok v →
      App.execute pa ex r line = .ok (some v) ∧
      AsyncApp.execute pa ex r line = .ok (some v)) ∧
    (∀ e : PyErr, dispatchAttempt pa ex r line = .error e → e.isCNF = false →
      App.execute pa ex r line = .error (wrapCEE e) ∧
      AsyncApp.execute pa ex r line = .error (wrapCEE e)) ∧
    (∀ e : PyErr, dispatchAttempt pa ex r line = .error e → e.isCNF = true →
      resKind (App.execute pa ex r line) = .notFound ∧
      resKind (AsyncApp.execute pa ex r line) = .execErr) := by
  have hasync := asyncExecute_eq_wrap pa ex r line
  refine ⟨?_, ?_, ?_⟩
  · intro v hd
    constructor
    · unfold App.execute
      rw [hd]
    · rw [hasync, hd]
  · intro e hd hk
    constructor
    · unfold App.execute
      rw [hd]
      simp [hk]
    · rw [hasync, hd]
  · intro e hd hk
    have hmsg : ∃ m, e = .commandNotFoundError m := by
      cases e with
      | commandNotFoundError m => exact ⟨m, rfl⟩
      | valueError m => simp [PyErr.isCNF] at hk
      | commandExecutionError m => simp [PyErr.isCNF] at hk
      | otherError k m => simp [PyErr.isCNF] at hk
    obtain ⟨m, rfl⟩ := hmsg
    obtain ⟨t, rest, hsp⟩ := dispatchAttempt_cnf_tokens pa ex r line m hd
    constructor
    · unfold App.execute
      rw [hd]
      simp only [PyErr.isCNF, if_pos]
      rw [hsp]
      cases hfs : r.find_similar_commands t (mkRat 3 5) with
      | nil => simp [hfs, resKind]
      | cons s ss => simp [hfs, resKind]
    · rw [hasync, hd]
      simp [wrapCEE, resKind]

theorem claim_C8_witness :
    (App.execute paId exNat (appInitRouter "exit" false) "help" = .ok (some 1) ∧
      AsyncApp.execute paId exNat (appInitRouter "exit" false) "help" = .ok (some 1)) ∧
    (App.execute paId exNat (appInitRouter "exit" false) "bad \"q" =
        .error (wrapCEE (.valueError
          "Ошибка разбора командной строки: No closing quotation")) ∧
      AsyncApp.execute paId exNat (appInitRouter "exit" false) "bad \"q" =
        .error (wrapCEE (.valueError
          "Ошибка разбора командной строки: No closing quotation"))) ∧
    resKind (App.execute paId exNat (appInitRouter "exit" false) "qqqq") = .notFound ∧
    resKind (AsyncApp.execute paId exNat (appInitRouter "exit" false) "qqqq") = .execErr :=
  ⟨(claim_C8 paId exNat (appInitRouter "exit" false) "help").1 1 (by decide),
   (claim_C8 paId exNat (appInitRouter "exit" false) "bad \"q").2.1
      (.valueError "Ошибка разбора командной строки: No closing quotation")
      (by decide) (by decide),
   ((claim_C8 paId exNat (appInitRouter "exit" false) "qqqq").2.2
      (.commandNotFoundError "Команда \x27qqqq\x27 не найдена")
      (by decide) (by decide)).1,
   ((claim_C8 paId exNat (appInitRouter "exit" false) "qqqq").2.2
      (.commandNotFoundError "Команда \x27qqqq\x27 не найдена")
      (by decide) (by decide)).2⟩

/-- An executor modelling a synchronous handler that itself raises
`CommandNotFoundError`. -/
def exCNF : Command → List String → Except PyErr Nat :=
  fun _ _ => .error (.commandNotFoundError "Команда \x27other\x27 не найдена")

/-- C8 counterexample: on an unknown command (`zzzz`) the synchronous
dispatcher fails with a `CommandNotFoundError` while the asynchronous
one fails with a `CommandExecutionError`; the same divergence occurs
when a successfully resolved handler (`help`) itself raises
`CommandNotFoundError` — `App.execute` routes it through the suggestion
branch, `AsyncApp.execute` wraps it — refuting the claim that the two
dispatchers produce the same error kind on failure. -/
theorem claim_C8_counterexample :
    resKind (App.execute paId exNat (appInitRouter "exit" false) "zzzz") = .notFound ∧
    resKind (AsyncApp.execute paId exNat (appInitRouter "exit" false) "zzzz") = .execErr ∧
    App.execute paId exNat (appInitRouter "exit" false) "zzzz" ≠
      AsyncApp.execute paId exNat (appInitRouter "exit" false) "zzzz" ∧
    resKind (App.execute paId exCNF (appInitRouter "exit" false) "help") = .notFound ∧
    resKind (AsyncApp.execute paId exCNF (appInitRouter "exit" false) "help") = .execErr := by
  refine ⟨by decide, by decide, by decide, by decide, by decide⟩

/-! ### Claim C3 -/

theorem tupGe_fst_le {x y : ℚ × String} (h : tupGe x y) : y.1 ≤ x.1 := by
  rcases h with h | ⟨h, _⟩
  · exact le_of_lt h
  · exact le_of_eq h.symm

/-- Everything `find_similar_commands` returns is a stored key whose
ratio against the folded query is at or above the threshold. -/
theorem find_similar_mem (r : Router) (q : String) (t : ℚ) (s : String)
    (h : s ∈ r.find_similar_commands q t) :
    s ∈ dkeys r.commands ++ dkeys r.aliases ∧
    t ≤ seqRatio s.data (fold r.case_sensitive q).data := by
  unfold Router.find_similar_commands get_close_matches at h
  obtain ⟨p, hpmem, hps⟩ := List.mem_map.mp h
  have hp1 : p ∈ List.insertionSort tupGe
      (scoredCandidates (fold r.case_sensitive q)
        (dkeys r.commands ++ dkeys r.aliases) t) :=
    List.mem_of_mem_take hpmem
  have hp2 : p ∈ scoredCandidates (fold r.case_sensitive q)
      (dkeys r.commands ++ dkeys r.aliases) t :=
    (List.mem_insertionSort tupGe).mp hp1
  obtain ⟨hmem, hratio, hcut⟩ := mem_scoredCandidates _ _ _ _ hp2
  subst hps
  exact ⟨hmem, hratio ▸ hcut⟩

/-- C3 (amended): `find_similar_commands` is a total function returning
at most three names, each drawn from the stored (folded) canonical-name
and alias keys with similarity ratio at or above the threshold, sorted by
non-increasing ratio; ties are broken by Python's tuple comparison —
i.e. by DESCENDING string order, not by registration order — and on the
registered names `{status, stats, start}` with query `stat` and threshold
0.6 the result is the non-empty list `[stats, start, status]`: `start`
ties with `stats` at ratio 8/9 and outranks `status` (ratio 4/5), so
`status` and `stats` are NOT both ranked above `start`. -/
theorem claim_C3 (r : Router) (q : String) (t : ℚ) :
    (r.find_similar_commands q t).length ≤ 3 ∧
    (∀ s ∈ r.find_similar_commands q t,
      s ∈ dkeys r.commands ++ dkeys r.aliases ∧
      t ≤ seqRatio s.data (fold r.case_sensitive q).data) ∧
    (r.find_similar_commands q t).Pairwise
      (fun a b => seqRatio b.data (fold r.case_sensitive q).data ≤
        seqRatio a.data (fold r.case_sensitive q).data) ∧
    rStat.find_similar_commands "stat" (mkRat 3 5) = ["stats", "start", "status"] := by
  refine ⟨?_, fun s hs => find_similar_mem r q t s hs, ?_, by decide⟩
  · unfold Router.find_similar_commands get_close_matches
    rw [List.length_map]
    exact le_trans (List.length_take_le 3 _) le_rfl
  · unfold Router.find_similar_commands get_close_matches
    rw [List.pairwise_map]
    have hsorted : (List.insertionSort tupGe
        (scoredCandidates (fold r.case_sensitive q)
          (dkeys r.commands ++ dkeys r.aliases) t)).Pairwise tupGe :=
      List.sorted_insertionSort tupGe _
    have htake : ((List.insertionSort tupGe
        (scoredCandidates (fold r.case_sensitive q)
          (dkeys r.commands ++ dkeys r.aliases) t)).take 3).Pairwise tupGe :=
      hsorted.sublist (List.take_sublist 3 _)
    refine htake.imp_of_mem ?_
    intro a b ha hb hge
    have hra : a.1 = seqRatio a.2.data (fold r.case_sensitive q).data :=
      (mem_scoredCandidates _ _ _ _
        ((List.mem_insertionSort tupGe).mp (List.mem_of_mem_take ha))).2.1
    have hrb : b.1 = seqRatio b.2.data (fold r.case_sensitive q).data :=
      (mem_scoredCandidates _ _ _ _
        ((List.mem_insertionSort tupGe).mp (List.mem_of_mem_take hb))).2.1
    exact hra ▸ hrb ▸ tupGe_fst_le hge

theorem claim_C3_witness :
    (rStat.find_similar_commands "stat" (mkRat 3 5)).length ≤ 3 ∧
    ("stats" ∈ dkeys rStat.commands ++ dkeys rStat.aliases ∧
      mkRat 3 5 ≤ seqRatio "stats".data (fold rStat.case_sensitive "stat").data) :=
  ⟨(claim_C3 rStat "stat" (mkRat 3 5)).1,
   (claim_C3 rStat "stat" (mkRat 3 5)).2.1 "stats" (by decide)⟩

/-- C3 counterexample: with registered names `{status, stats, start}`,
query `stat` and the default 0.6 threshold, the suggestion list is
`[stats, start, status]` — `start` is ranked ABOVE `status`, refuting the
claimed ordering ("status" and "stats" above "start") and the claimed
registration-order tie-break (ties are broken by descending string
comparison: `stats` sorts before the equal-ratio `start`). -/
theorem claim_C3_counterexample :
    rStat.find_similar_commands "stat" (mkRat 3 5) = ["stats", "start", "status"] ∧
    (rStat.find_similar_commands "stat" (mkRat 3 5)).indexOf "start" <
      (rStat.find_similar_commands "stat" (mkRat 3 5)).indexOf "status" ∧
    seqRatio "start".data "stat".data = seqRatio "stats".data "stat".data := by
  refine ⟨by decide, by decide, by decide⟩
